import Mathlib

/-!
Verification of the graph-data-processing GraphQL subgraph.

The repository contains two snapshots of the service: `graph-data-processing`
(early) and `processed_data` (final).  Rust types are embedded as follows:
`u32` becomes `Nat` (ids are only compared, never overflowed), `i8`/`i32`
become `Int`, `String` stays `String`, and `f32` columns — which the service
only carries, never computes with — become the opaque bit-pattern wrapper
`F32`.  Rust `Option` becomes `Option`; `Option::unwrap`, which aborts the
task when applied to `None`, is modelled by `unwrapOpt` in the `Except Abort`
monad.  `HashMap` result maps are modelled by their lookup function
`K → Option V`.  Database errors surfaced through `?` are modelled by an
`Except DbErr` parameter holding the store's response.
-/

/-- Opaque wrapper for an `f32` column value; the service never interprets
these beyond carrying them, so only the bit pattern matters. -/
structure F32 where
  bits : Nat
deriving DecidableEq, Repr

/-- Marker for a fatal task abort, produced by `Option::unwrap` on `None`. -/
inductive Abort where
  | unwrapNone
deriving DecidableEq, Repr

/-- Model of Rust `Option::unwrap`: yields the value, or aborts on `None`. -/
def unwrapOpt {α : Type} : Option α → Except Abort α
  | some a => Except.ok a
  | none => Except.error Abort.unwrapNone

/-- A database-access failure, as surfaced by the `?` operator in the
loaders (`sea_orm` error converted into `async_graphql::Error`). -/
structure DbErr where
  message : String
deriving DecidableEq, Repr

/-- The empty result map (`HashMap::new`), modelled by its lookup function. -/
def emptyMap {K V : Type} : K → Option V := fun _ => none

/-- `HashMap::insert`: overwrites any previous value stored under `k`. -/
def mapInsert {K V : Type} [DecidableEq K] (m : K → Option V) (k : K) (v : V) : K → Option V :=
  fun q => if q = k then some v else m q

/-- `results.entry(k).or_insert_with(Vec::new).push(v)`: appends `v` at the
end of the list stored under `k`, creating the list if absent. -/
def mapPush {K R : Type} [DecidableEq K] (m : K → Option (List R)) (k : K) (v : R) :
    K → Option (List R) :=
  fun q => if q = k then some ((m k).getD [] ++ [v]) else m q

/-- The `StatisticsType` GraphQL enum (`processed_data/src/graphql/entities.rs`). -/
inductive StatisticsType where
  | Overall
  | InnerShell
  | OuterShell
deriving DecidableEq, Repr, Hashable

/-- `impl ToString for StatisticsType`: the literal filter strings. -/
def StatisticsType.to_string : StatisticsType → String
  | .Overall => "overall"
  | .InnerShell => "innershell"
  | .OuterShell => "outershell"

/-- The stored `sea_orm_active_enums::ScalingStatisticsType`, the
database-side enum of the `scalingStatisticsType` column.  Its three
variants are fixed by the `From<ScalingStatisticsType>` match in
`entities.rs`. -/
inductive ScalingStatisticsType where
  | Overall
  | InnerShell
  | OuterShell
deriving DecidableEq, Repr

/-- Modelled from the spec: the storage string value of each
`ScalingStatisticsType` variant.  The enum itself is generated by
`sea-orm-codegen` (`models/build.rs`) and its generated source is not part
of the repository; the spec's design note fixes the stored literals as
"overall"/"innershell"/"outershell". -/
def ScalingStatisticsType.to_value : ScalingStatisticsType → String
  | .Overall => "overall"
  | .InnerShell => "innershell"
  | .OuterShell => "outershell"

/-- `impl From<ScalingStatisticsType> for StatisticsType` (`entities.rs`). -/
def StatisticsType.ofScaling : ScalingStatisticsType → StatisticsType
  | .Overall => .Overall
  | .InnerShell => .InnerShell
  | .OuterShell => .OuterShell

/-- The `DataProcessing` GraphQL entity: a processed image stored in S3. -/
structure DataProcessing where
  id : Nat
  file_full_path : String
deriving DecidableEq, Repr

/-- `DataProcessing::object_key` in `processed_data/src/graphql/entities.rs`:
`self.file_full_path.to_string()`. -/
def DataProcessing.object_key (d : DataProcessing) : String :=
  d.file_full_path

/-- `DataProcessing::object_key` in the earlier
`graph-data-processing/src/graphql/entities.rs` snapshot:
the format of `self.file_full_path` alone, hence again the stored path. -/
def DataProcessing.object_key_v0 (d : DataProcessing) : String :=
  d.file_full_path

/-- Row of the `DataCollectionFileAttachment` table (generated
`data_collection_file_attachment::Model`, columns per `models/build.rs`). -/
structure DataCollectionFileAttachment where
  data_collection_file_attachment_id : Nat
  data_collection_id : Nat
  file_full_path : String
deriving DecidableEq, Repr

/-- `impl From<data_collection_file_attachment::Model> for DataProcessing`. -/
def DataProcessing.ofModel (value : DataCollectionFileAttachment) : DataProcessing :=
  { id := value.data_collection_file_attachment_id
    file_full_path := value.file_full_path }

/-- The `DataCollection` federation entity stub (`Datasets` subgraph type). -/
structure DataCollection where
  id : Nat
deriving DecidableEq, Repr

/-- `Query::router_data_collection`, the federation entity-reference
resolver: its body is the bare constructor `DataCollection { id }` in both
snapshots (`processed_data` and `graph-data-processing`), so it is embedded
as a pure function — it touches neither the database handle nor the object
store. -/
def Query.router_data_collection (id : Nat) : DataCollection :=
  { id := id }

/-- The `ProcessingJob` GraphQL entity; `From<processing_job::Model>` is a
field-for-field copy, so the same structure models the table row. -/
structure ProcessingJob where
  processing_job_id : Nat
  data_collection_id : Option Nat
  display_name : Option String
  automatic : Option Int
deriving DecidableEq, Repr

/-- The `ProcessingJobParameter` GraphQL entity; the `From` conversion from
`processing_job_parameter::Model` is again a field-for-field copy. -/
structure ProcessingJobParameter where
  processing_job_parameter_id : Nat
  processing_job_id : Option Nat
  parameter_key : Option String
  parameter_value : Option String
deriving DecidableEq, Repr

/-- `ProcessJob`: a processing job paired with its optional parameter row,
as produced by `find_also_related` in `ProcessJobDataLoader::load`. -/
structure ProcessJob where
  processing_job : ProcessingJob
  parameters : Option ProcessingJobParameter
deriving DecidableEq, Repr

/-- The `AutoProc` GraphQL entity (field-for-field copy of `auto_proc::Model`). -/
structure AutoProc where
  auto_proc_id : Nat
  auto_proc_program_id : Option Nat
  space_group : Option String
  refined_cell_a : Option F32
  refined_cell_b : Option F32
  refined_cell_c : Option F32
  refined_cell_alpha : Option F32
  refined_cell_beta : Option F32
  refined_cell_gamma : Option F32
deriving DecidableEq, Repr

/-- The `AutoProcScaling` GraphQL entity (copy of `auto_proc_scaling::Model`). -/
structure AutoProcScaling where
  auto_proc_scaling_id : Nat
  auto_proc_id : Option Nat
deriving DecidableEq, Repr

/-- `AutoProcess`: an `AutoProc` row with its optional related scaling row,
as produced by `find_also_related` in `AutoProcessingDataLoader::load`. -/
structure AutoProcess where
  auto_proc : AutoProc
  auto_proc_scaling : Option AutoProcScaling
deriving DecidableEq, Repr

/-- The `AutoProcIntegration` GraphQL entity. -/
structure AutoProcIntegration where
  auto_proc_integration_id : Nat
  data_collection_id : Nat
  auto_proc_program_id : Option Nat
  refined_x_beam : Option F32
  refined_y_beam : Option F32
deriving DecidableEq, Repr

/-- The `AutoProcProgram` GraphQL entity. -/
structure AutoProcProgram where
  auto_proc_program_id : Nat
  processing_programs : Option String
  processing_status : Option Int
  processing_message : Option String
  processing_job_id : Option Nat
deriving DecidableEq, Repr

/-- `AutoProcessing`: integration row plus its optional program row. -/
structure AutoProcessing where
  auto_proc_integration : AutoProcIntegration
  auto_proc_program : Option AutoProcProgram
deriving DecidableEq, Repr

/-- The `AP` GraphQL entity: the flattened four-table row assembled by
`AutoProcIntegrationDataLoader::load` out of the raw multi-table query. -/
structure AP where
  auto_proc_integration_id : Nat
  data_collection_id : Nat
  auto_proc_program_id : Option Nat
  refined_x_beam : Option F32
  refined_y_beam : Option F32
  processing_programs : Option String
  processing_status : Option Int
  processing_message : Option String
  processing_job_id : Option Nat
  auto_proc_id : Option Nat
  space_group : Option String
  refined_cell_a : Option F32
  refined_cell_b : Option F32
  refined_cell_c : Option F32
  refined_cell_alpha : Option F32
  refined_cell_beta : Option F32
  refined_cell_gamma : Option F32
  auto_proc_scaling_id : Option Nat
deriving DecidableEq, Repr

/-- Row of the `AutoProcScalingStatistics` table
(`auto_proc_scaling_statistics::Model`, columns per `models/build.rs`). -/
structure AutoProcScalingStatisticsModel where
  auto_proc_scaling_statistics_id : Nat
  auto_proc_scaling_id : Option Nat
  scaling_statistics_type : ScalingStatisticsType
  resolution_limit_low : Option F32
  resolution_limit_high : Option F32
  r_merge : Option F32
  r_meas_all_i_plus_i_minus : Option F32
  n_total_observations : Option Int
  n_total_unique_observations : Option Int
  mean_i_over_sig_i : Option F32
  completeness : Option F32
  multiplicity : Option F32
  anomalous_completeness : Option F32
  anomalous_multiplicity : Option F32
  cc_half : Option F32
  cc_anomalous : Option F32
deriving DecidableEq, Repr

/-- The `AutoProcScalingStatics` GraphQL entity. -/
structure AutoProcScalingStatics where
  auto_proc_scaling_statistics_id : Nat
  auto_proc_scaling_id : Option Nat
  scaling_statistics_type : StatisticsType
  resolution_limit_low : Option F32
  resolution_limit_high : Option F32
  r_merge : Option F32
  r_meas_all_i_plus_i_minus : Option F32
  n_total_observations : Option Int
  n_total_unique_observations : Option Int
  mean_i_over_sig_i : Option F32
  completeness : Option F32
  multiplicity : Option F32
  anomalous_completeness : Option F32
  anomalous_multiplicity : Option F32
  cc_half : Option F32
  cc_anomalous : Option F32
deriving DecidableEq, Repr

/-- `impl From<auto_proc_scaling_statistics::Model> for AutoProcScalingStatics`:
a field-for-field copy except that the stored enum goes through
`StatisticsType::from`. -/
def AutoProcScalingStatics.ofModel (value : AutoProcScalingStatisticsModel) :
    AutoProcScalingStatics :=
  { auto_proc_scaling_statistics_id := value.auto_proc_scaling_statistics_id
    auto_proc_scaling_id := value.auto_proc_scaling_id
    scaling_statistics_type := StatisticsType.ofScaling value.scaling_statistics_type
    resolution_limit_low := value.resolution_limit_low
    resolution_limit_high := value.resolution_limit_high
    r_merge := value.r_merge
    r_meas_all_i_plus_i_minus := value.r_meas_all_i_plus_i_minus
    n_total_observations := value.n_total_observations
    n_total_unique_observations := value.n_total_unique_observations
    mean_i_over_sig_i := value.mean_i_over_sig_i
    completeness := value.completeness
    multiplicity := value.multiplicity
    anomalous_completeness := value.anomalous_completeness
    anomalous_multiplicity := value.anomalous_multiplicity
    cc_half := value.cc_half
    cc_anomalous := value.cc_anomalous }

/-- Generic overwrite-insert phase shared by the one-to-one loaders: fold
the returned rows into the result map with `HashMap::insert`, keying each
row by `key` and converting it with `conv`. -/
def insertFold {K R V : Type} [DecidableEq K] (key : R → K) (conv : R → V) (m : K → Option V)
    (rows : List R) : K → Option V :=
  rows.foldl (fun results r => mapInsert results (key r) (conv r)) m

/-- Generic grouping phase shared by the one-to-many loaders: fold the
returned rows into the result map with `entry(..).or_insert_with(Vec::new).push(..)`. -/
def pushFold {K R : Type} [DecidableEq K] (key : R → K) (m : K → Option (List R))
    (rows : List R) : K → Option (List R) :=
  rows.foldl (fun results r => mapPush results (key r) r) m

/-- Overwrite-insert phase whose key column is `Option`-typed and unwrapped
per row (`key_col.unwrap()` in the source): aborts at the first row whose
key column is `None`. -/
def insertFoldU {K R V : Type} [DecidableEq K] (key : R → Option K) (conv : R → V) :
    (K → Option V) → List R → Except Abort (K → Option V)
  | m, [] => Except.ok m
  | m, r :: rest =>
    match key r with
    | none => Except.error Abort.unwrapNone
    | some k => insertFoldU key conv (mapInsert m k (conv r)) rest

/-- Grouping phase whose key column is `Option`-typed and unwrapped per row. -/
def pushFoldU {K R : Type} [DecidableEq K] (key : R → Option K) :
    (K → Option (List R)) → List R → Except Abort (K → Option (List R))
  | m, [] => Except.ok m
  | m, r :: rest =>
    match key r with
    | none => Except.error Abort.unwrapNone
    | some k => pushFoldU key (mapPush m k r) rest

/-- Result-building loop of `ProcessedDataLoader::load`: each returned file
attachment row is inserted under its (non-optional) `data_collection_id`,
converted through `DataProcessing::from`. -/
def ProcessedDataLoader.loadInsert (records : List DataCollectionFileAttachment) :
    Nat → Option DataProcessing :=
  insertFold (fun r => r.data_collection_id) DataProcessing.ofModel emptyMap records

/-- `ProcessedDataLoader::load`: queries file attachment rows whose
`dataCollectionId` is in `keys` (the `is_in` filter), then builds the
result map.  The `db` argument is the store's response: the table contents,
or the database failure surfaced by `?`. -/
def ProcessedDataLoader.load (keys : List Nat)
    (db : Except DbErr (List DataCollectionFileAttachment)) :
    Except DbErr (Nat → Option DataProcessing) :=
  match db with
  | Except.error e => Except.error e
  | Except.ok table =>
    Except.ok (ProcessedDataLoader.loadInsert
      (table.filter (fun r => keys.contains r.data_collection_id)))

/-- Result-building loop of `ProcessJobDataLoader::load`: each `ProcessJob`
record is pushed onto the list kept under
`record.processing_job.data_collection_id.unwrap()`. -/
def ProcessJobDataLoader.loadInsert :
    List ProcessJob → Except Abort (Nat → Option (List ProcessJob)) :=
  pushFoldU (fun r => r.processing_job.data_collection_id) emptyMap

/-- Result-building loop of `AutoProcIntegrationDataLoader::load`: each
assembled `AP` record is pushed onto the list kept under its
(non-optional) `data_collection_id`. -/
def AutoProcIntegrationDataLoader.loadInsert (records : List AP) :
    Nat → Option (List AP) :=
  pushFold (fun r => r.data_collection_id) emptyMap records

/-- Result-building loop of `AutoProcessingDataLoader::load`: each
`AutoProcess` record is inserted (overwriting) under
`record.auto_proc.auto_proc_program_id.unwrap()`. -/
def AutoProcessingDataLoader.loadInsert :
    List AutoProcess → Except Abort (Nat → Option AutoProcess) :=
  insertFoldU (fun r => r.auto_proc.auto_proc_program_id) id emptyMap

/-- The composite key extracted from a statistics row by
`AutoProcScalingDataLoader::load`:
`(record.auto_proc_scaling_id.unwrap(), record.scaling_statistics_type.into())`.
The unwrap is modelled by the `Option.map`, leaving `None` exactly when the
`autoProcScalingId` column is `NULL`. -/
def AutoProcScalingDataLoader.rowKey (r : AutoProcScalingStatisticsModel) :
    Option (Nat × StatisticsType) :=
  r.auto_proc_scaling_id.map
    (fun id => (id, StatisticsType.ofScaling r.scaling_statistics_type))

/-- Result-building loop of `AutoProcScalingDataLoader::load`. -/
def AutoProcScalingDataLoader.loadInsert :
    List AutoProcScalingStatisticsModel →
      Except Abort ((Nat × StatisticsType) → Option AutoProcScalingStatics) :=
  insertFoldU AutoProcScalingDataLoader.rowKey AutoProcScalingStatics.ofModel emptyMap

/-- The tuple membership predicate built by `AutoProcScalingDataLoader::load`:
`(autoProcScalingId, scalingStatisticsType) IN ((id, type.to_string()), ...)`.
A row matches when some requested pair equals the row's id column and the
stored enum's string value; a `NULL` id column matches nothing (SQL tuple
comparison with `NULL` never holds). -/
def AutoProcScalingDataLoader.tupleMatch (keys : List (Nat × StatisticsType))
    (r : AutoProcScalingStatisticsModel) : Bool :=
  keys.any (fun kt =>
    r.auto_proc_scaling_id == some kt.1 &&
      r.scaling_statistics_type.to_value == kt.2.to_string)

/-- The query issued by `AutoProcScalingDataLoader::load` against the
statistics table: exactly the rows satisfying the tuple predicate. -/
def AutoProcScalingDataLoader.query (keys : List (Nat × StatisticsType))
    (table : List AutoProcScalingStatisticsModel) :
    List AutoProcScalingStatisticsModel :=
  table.filter (AutoProcScalingDataLoader.tupleMatch keys)

/-- `AutoProcScalingDataLoader::load`: issues the tuple-predicate query and
builds the result map; a database failure is surfaced by `?`, a `NULL`
`autoProcScalingId` in a returned row aborts via `unwrap`. -/
def AutoProcScalingDataLoader.load (keys : List (Nat × StatisticsType))
    (db : Except DbErr (List AutoProcScalingStatisticsModel)) :
    Except DbErr (Except Abort ((Nat × StatisticsType) → Option AutoProcScalingStatics)) :=
  match db with
  | Except.error e => Except.error e
  | Except.ok table =>
    Except.ok (AutoProcScalingDataLoader.loadInsert
      (AutoProcScalingDataLoader.query keys table))

/-- Modelled from the spec: the Key-Batch Collector of the `async_graphql`
`DataLoader` used by `add_data_loaders` (library code, not part of this
repository).  Within one scheduling tick the registrations `regs` are
accumulated, the deduplicated key set is handed to the fetch function once,
and each waiter receives the entry for its key — or the whole batch's
failure.  The first component records the key batches the fetch function
was invoked with; the second pairs every registration with the outcome
delivered to that waiter. -/
def runTick {K V : Type} [DecidableEq K] (regs : List K)
    (fetch : List K → Except DbErr (K → Option V)) :
    List (List K) × List (K × Except DbErr (Option V)) :=
  if regs.isEmpty then ([], [])
  else
    match fetch regs.dedup with
    | Except.error e => ([regs.dedup], regs.map (fun k => (k, Except.error e)))
    | Except.ok fetched => ([regs.dedup], regs.map (fun k => (k, Except.ok (fetched k))))

/-- Key extraction of the resolver `AutoProcess::overall`
(`processed_data/src/graphql/mod.rs`): clones the optional
`auto_proc_scaling` field, unwraps it, then unwraps its `auto_proc_id`,
and requests `(id, StatisticsType::Overall)` from the scaling loader. -/
def AutoProcess.overall_key (a : AutoProcess) : Except Abort (Nat × StatisticsType) := do
  let scaling ← unwrapOpt a.auto_proc_scaling
  let id ← unwrapOpt scaling.auto_proc_id
  Except.ok (id, StatisticsType.Overall)

/-- Key extraction of the resolver `AutoProcess::inner_shell`. -/
def AutoProcess.inner_shell_key (a : AutoProcess) : Except Abort (Nat × StatisticsType) := do
  let scaling ← unwrapOpt a.auto_proc_scaling
  let id ← unwrapOpt scaling.auto_proc_id
  Except.ok (id, StatisticsType.InnerShell)

/-- Key extraction of the resolver `AutoProcess::outer_shell`. -/
def AutoProcess.outer_shell_key (a : AutoProcess) : Except Abort (Nat × StatisticsType) := do
  let scaling ← unwrapOpt a.auto_proc_scaling
  let id ← unwrapOpt scaling.auto_proc_id
  Except.ok (id, StatisticsType.OuterShell)

/-- Key extraction of the resolver `AutoProcessing::auto_proc`:
`self.auto_proc_integration.auto_proc_program_id` followed by `id.unwrap()`. -/
def AutoProcessing.auto_proc_key (ap : AutoProcessing) : Except Abort Nat :=
  unwrapOpt ap.auto_proc_integration.auto_proc_program_id

/-- An `AutoProc` row carrying no program id, as permitted by the schema
(`autoProcProgramId` is a nullable column). -/
def autoProcBare : AutoProc :=
  { auto_proc_id := 1
    auto_proc_program_id := none
    space_group := none
    refined_cell_a := none
    refined_cell_b := none
    refined_cell_c := none
    refined_cell_alpha := none
    refined_cell_beta := none
    refined_cell_gamma := none }

/-- An `AutoProcess` whose related scaling row is absent — exactly what
`AutoProcessingDataLoader::load` produces when `find_also_related` finds no
`AutoProcScaling` row for the `AutoProc` row. -/
def autoProcessNoScaling : AutoProcess :=
  { auto_proc := autoProcBare, auto_proc_scaling := none }

/-- An `AutoProcessing` whose integration row has a `NULL`
`autoProcProgramId`, as the nullable column permits. -/
def autoProcessingNoProgram : AutoProcessing :=
  { auto_proc_integration :=
      { auto_proc_integration_id := 1
        data_collection_id := 1
        auto_proc_program_id := none
        refined_x_beam := none
        refined_y_beam := none }
    auto_proc_program := none }

/-- Whether a load completed rather than aborting. -/
def isOkE {ε α : Type} : Except ε α → Bool
  | Except.ok _ => true
  | Except.error _ => false

/-- Sample file attachment row used to exercise the loaders on concrete data. -/
def fileRowA : DataCollectionFileAttachment :=
  { data_collection_file_attachment_id := 11
    data_collection_id := 7
    file_full_path := "/dls/i03/a.h5" }

/-- A second sample file attachment row for the same data collection. -/
def fileRowB : DataCollectionFileAttachment :=
  { data_collection_file_attachment_id := 12
    data_collection_id := 7
    file_full_path := "/dls/i03/b.h5" }

/-- Sample `ProcessJob` record with the given `dataCollectionId` column. -/
def processJobRow (dc : Option Nat) : ProcessJob :=
  { processing_job :=
      { processing_job_id := 21
        data_collection_id := dc
        display_name := none
        automatic := none }
    parameters := none }

/-- Sample `AP` record with the given `dataCollectionId`. -/
def apRow (dc : Nat) : AP :=
  { auto_proc_integration_id := 31
    data_collection_id := dc
    auto_proc_program_id := none
    refined_x_beam := none
    refined_y_beam := none
    processing_programs := none
    processing_status := none
    processing_message := none
    processing_job_id := none
    auto_proc_id := none
    space_group := none
    refined_cell_a := none
    refined_cell_b := none
    refined_cell_c := none
    refined_cell_alpha := none
    refined_cell_beta := none
    refined_cell_gamma := none
    auto_proc_scaling_id := none }

/-- Sample `AutoProcess` record with the given program id column and a
related scaling row. -/
def autoProcessRow (pid : Option Nat) (sid : Nat) : AutoProcess :=
  { auto_proc := { autoProcBare with auto_proc_program_id := pid }
    auto_proc_scaling := some { auto_proc_scaling_id := sid, auto_proc_id := some 1 } }

/-- Sample statistics table row with the given scaling id column and
statistics variant. -/
def statRow (sid : Option Nat) (t : ScalingStatisticsType) :
    AutoProcScalingStatisticsModel :=
  { auto_proc_scaling_statistics_id := 41
    auto_proc_scaling_id := sid
    scaling_statistics_type := t
    resolution_limit_low := none
    resolution_limit_high := none
    r_merge := none
    r_meas_all_i_plus_i_minus := none
    n_total_observations := none
    n_total_unique_observations := none
    mean_i_over_sig_i := none
    completeness := none
    multiplicity := none
    anomalous_completeness := none
    anomalous_multiplicity := none
    cc_half := none
    cc_anomalous := none }

/-- The last element of a non-empty list, phrased through `getLast?`. -/
theorem getLast?_cons_getD {α : Type} (a : α) (l : List α) :
    (a :: l).getLast? = some (l.getLast?.getD a) := by
  induction l generalizing a with
  | nil => rfl
  | cons b t ih => simp [List.getLast?_cons_cons, ih]

/-- Pointwise description of the overwrite-insert fold: the value stored
under `k` is the conversion of the last row keyed `k`, falling back to the
initial map when no row is keyed `k`. -/
theorem insertFold_apply {K R V : Type} [DecidableEq K] (key : R → K) (conv : R → V)
    (rows : List R) (m : K → Option V) (k : K) :
    insertFold key conv m rows k =
      ((rows.filter (fun r => key r == k)).getLast?).elim (m k) (fun r => some (conv r)) := by
  induction rows generalizing m with
  | nil => simp [insertFold]
  | cons r rest ih =>
    have hstep : insertFold key conv m (r :: rest) =
        insertFold key conv (mapInsert m (key r) (conv r)) rest := rfl
    rw [hstep, ih]
    by_cases h : key r = k
    · subst h
      rw [List.filter_cons_of_pos (by simp)]
      rw [getLast?_cons_getD]
      cases hl : (rest.filter (fun x => key x == key r)).getLast? with
      | none => simp [hl, mapInsert]
      | some y => simp [hl]
    · rw [List.filter_cons_of_neg (by simp [h])]
      have hk : ¬ (k = key r) := fun hh => h hh.symm
      have hmk : mapInsert m (key r) (conv r) k = m k := by simp [mapInsert, hk]
      rw [hmk]

/-- Pointwise description of the grouping fold: the list stored under `k`
collects, in store order, every row keyed `k`, appended to whatever the
initial map already held under `k`. -/
theorem pushFold_apply {K R : Type} [DecidableEq K] [DecidableEq R] (key : R → K)
    (rows : List R) (m : K → Option (List R)) (k : K) :
    pushFold key m rows k =
      (if rows.filter (fun r => key r == k) = [] then m k
       else some ((m k).getD [] ++ rows.filter (fun r => key r == k))) := by
  induction rows generalizing m with
  | nil => simp [pushFold]
  | cons r rest ih =>
    have hstep : pushFold key m (r :: rest) = pushFold key (mapPush m (key r) r) rest := rfl
    rw [hstep, ih]
    by_cases h : key r = k
    · subst h
      rw [List.filter_cons_of_pos (by simp)]
      have hmk : mapPush m (key r) r (key r) = some ((m (key r)).getD [] ++ [r]) := by
        simp [mapPush]
      by_cases hrest : rest.filter (fun x => key x == key r) = []
      · simp [hrest, hmk]
      · simp [hrest, hmk, List.append_assoc]
    · rw [List.filter_cons_of_neg (by simp [h])]
      have hk : ¬ (k = key r) := fun hh => h hh.symm
      have hmk : mapPush m (key r) r k = m k := by simp [mapPush, hk]
      rw [hmk]

/-- When every returned row has a populated key column, the unwrapping
overwrite-insert loop completes and agrees with the pure fold over the
forced keys. -/
theorem insertFoldU_of_isSome {K R V : Type} [DecidableEq K] (key : R → Option K)
    (keyT : R → K) (conv : R → V) (rows : List R) :
    ∀ m, (∀ r ∈ rows, key r = some (keyT r)) →
      insertFoldU key conv m rows = Except.ok (insertFold keyT conv m rows) := by
  induction rows with
  | nil => intro m _; rfl
  | cons r rest ih =>
    intro m h
    have hr : key r = some (keyT r) := h r (List.mem_cons_self r rest)
    have hrest : ∀ x ∈ rest, key x = some (keyT x) := fun x hx => h x (List.mem_cons_of_mem r hx)
    simp only [insertFoldU, hr]
    exact ih (mapInsert m (keyT r) (conv r)) hrest

/-- When every returned row has a populated key column, the unwrapping
grouping loop completes and agrees with the pure fold over the forced keys. -/
theorem pushFoldU_of_isSome {K R : Type} [DecidableEq K] (key : R → Option K)
    (keyT : R → K) (rows : List R) :
    ∀ m, (∀ r ∈ rows, key r = some (keyT r)) →
      pushFoldU key m rows = Except.ok (pushFold keyT m rows) := by
  induction rows with
  | nil => intro m _; rfl
  | cons r rest ih =>
    intro m h
    have hr : key r = some (keyT r) := h r (List.mem_cons_self r rest)
    have hrest : ∀ x ∈ rest, key x = some (keyT x) := fun x hx => h x (List.mem_cons_of_mem r hx)
    simp only [pushFoldU, hr]
    exact ih (mapPush m (keyT r) r) hrest

/-- The unwrapping overwrite-insert loop completes exactly when every
returned row has a populated key column. -/
theorem insertFoldU_isOk_iff {K R V : Type} [DecidableEq K] (key : R → Option K)
    (conv : R → V) (rows : List R) :
    ∀ m, isOkE (insertFoldU key conv m rows) = true ↔ ∀ r ∈ rows, (key r).isSome := by
  induction rows with
  | nil => intro m; simp [insertFoldU, isOkE]
  | cons r rest ih =>
    intro m
    cases hr : key r with
    | none =>
      simp only [insertFoldU, hr]
      constructor
      · intro hfalse; exact absurd hfalse (by simp [isOkE])
      · intro hall
        have h2 := hall r (List.mem_cons_self r rest)
        rw [hr] at h2
        simp at h2
    | some k =>
      simp only [insertFoldU, hr]
      rw [ih (mapInsert m k (conv r))]
      simp [List.forall_mem_cons, hr]

/-- The unwrapping grouping loop completes exactly when every returned row
has a populated key column. -/
theorem pushFoldU_isOk_iff {K R : Type} [DecidableEq K] (key : R → Option K)
    (rows : List R) :
    ∀ m, isOkE (pushFoldU key m rows) = true ↔ ∀ r ∈ rows, (key r).isSome := by
  induction rows with
  | nil => intro m; simp [pushFoldU, isOkE]
  | cons r rest ih =>
    intro m
    cases hr : key r with
    | none =>
      simp only [pushFoldU, hr]
      constructor
      · intro hfalse; exact absurd hfalse (by simp [isOkE])
      · intro hall
        have h2 := hall r (List.mem_cons_self r rest)
        rw [hr] at h2
        simp at h2
    | some k =>
      simp only [pushFoldU, hr]
      rw [ih (mapPush m k r)]
      simp [List.forall_mem_cons, hr]

/-- A list's `getLast?` only produces members of the list. -/
theorem mem_of_getLast? {α : Type} {l : List α} {a : α} (h : l.getLast? = some a) :
    a ∈ l := by
  induction l with
  | nil => cases h
  | cons b t ih =>
    rw [getLast?_cons_getD] at h
    have ha : t.getLast?.getD b = a := by injection h
    cases ht : t.getLast? with
    | none =>
      rw [ht] at ha
      simp at ha
      subst ha
      exact List.mem_cons_self b t
    | some y =>
      rw [ht] at ha
      simp at ha
      subst ha
      exact List.mem_cons_of_mem b (ih ht)

/-- The overwrite-insert fold only populates keys of rows it received, or
keys the initial map already held. -/
theorem insertFold_support_general {K R V : Type} [DecidableEq K] (key : R → K)
    (conv : R → V) (rows : List R) (k : K) :
    ∀ (m : K → Option V), insertFold key conv m rows k ≠ none →
      (∃ r ∈ rows, key r = k) ∨ m k ≠ none := by
  induction rows with
  | nil => intro m hm; exact Or.inr hm
  | cons r rest ih =>
    intro m hm
    have hstep : insertFold key conv m (r :: rest) =
        insertFold key conv (mapInsert m (key r) (conv r)) rest := rfl
    rw [hstep] at hm
    cases ih (mapInsert m (key r) (conv r)) hm with
    | inl hex =>
      obtain ⟨x, hx, hkx⟩ := hex
      exact Or.inl ⟨x, List.mem_cons_of_mem r hx, hkx⟩
    | inr hmk =>
      by_cases hk : k = key r
      · exact Or.inl ⟨r, List.mem_cons_self r rest, hk.symm⟩
      · rw [mapInsert] at hmk
        simp only [if_neg hk] at hmk
        exact Or.inr hmk

/-- The overwrite-insert fold starting from the empty map only populates
keys of rows it actually received. -/
theorem insertFold_support {K R V : Type} [DecidableEq K] (key : R → K) (conv : R → V)
    (rows : List R) (k : K) (hne : insertFold key conv emptyMap rows k ≠ none) :
    ∃ r ∈ rows, key r = k := by
  cases insertFold_support_general key conv rows k emptyMap hne with
  | inl hex => exact hex
  | inr hmk => exact absurd rfl hmk

/-- The two string tables agree exactly on corresponding variants: a stored
enum's string value equals a `StatisticsType`'s filter literal precisely for
the variant that `From` maps it to. -/
theorem to_value_eq_to_string_iff :
    ∀ (s : ScalingStatisticsType) (t : StatisticsType),
      ScalingStatisticsType.to_value s = StatisticsType.to_string t ↔
        StatisticsType.ofScaling s = t := by
  intro s t
  cases s <;> cases t <;> decide

/-- Claim C1 (amended): `object_key` hands the stored `fileFullPath` to the
object store verbatim, in both repository snapshots; in particular a stored
full path beginning with a path separator keeps that leading separator in
the object key — no stripping occurs. -/
theorem c1_object_key_verbatim (d : DataProcessing) :
    DataProcessing.object_key d = d.file_full_path ∧
    DataProcessing.object_key_v0 d = d.file_full_path ∧
    (∀ s, d.file_full_path = "/" ++ s → DataProcessing.object_key d = "/" ++ s) :=
  ⟨rfl, rfl, fun _ h => h⟩

/-- Claim C1 counterexample: for the spec's own example, a stored full path
`/data/run1/img.h5` yields the object key `/data/run1/img.h5`, not the
claimed `data/run1/img.h5` with the leading separator stripped. -/
theorem c1_object_key_counterexample :
    DataProcessing.object_key { id := 1, file_full_path := "/data/run1/img.h5" } =
      "/data/run1/img.h5" ∧
    DataProcessing.object_key { id := 1, file_full_path := "/data/run1/img.h5" } ≠
      "data/run1/img.h5" :=
  ⟨rfl, by decide⟩

/-- Witness for C1: the amended statement evaluated on the spec's example
path, whose leading separator is preserved. -/
theorem c1_object_key_witness :
    DataProcessing.object_key { id := 1, file_full_path := "/data/run1/img.h5" } =
      "/" ++ "data/run1/img.h5" := by
  have h := c1_object_key_verbatim { id := 1, file_full_path := "/data/run1/img.h5" }
  exact h.2.2 "data/run1/img.h5" (by decide)

/-- Claim C2 (code bug exhibited): resolving `overall`, `inner_shell` or
`outer_shell` on an `AutoProcess` whose `auto_proc_scaling` field is absent
aborts fatally through `Option::unwrap`, and so does `AutoProcessing::auto_proc`
when `auto_proc_program_id` is absent — absence is not surfaced as an
optional value there, contradicting the spec's no-fatal-error guarantee. -/
theorem c2_resolver_unwrap_aborts :
    AutoProcess.overall_key autoProcessNoScaling = Except.error Abort.unwrapNone ∧
    AutoProcess.inner_shell_key autoProcessNoScaling = Except.error Abort.unwrapNone ∧
    AutoProcess.outer_shell_key autoProcessNoScaling = Except.error Abort.unwrapNone ∧
    AutoProcessing.auto_proc_key autoProcessingNoProgram = Except.error Abort.unwrapNone :=
  ⟨rfl, rfl, rfl, rfl⟩

/-- Claim C3: within one tick, N registrations of M distinct keys produce
exactly one fetch invocation whose key batch is duplicate-free, covers
exactly the registered keys, and has length M (the number of distinct
registrations); every registration — duplicates included — receives the
fetched entry for its key. -/
theorem c3_coalescing {K V : Type} [DecidableEq K] (regs : List K)
    (f : List K → K → Option V) (h : regs ≠ []) :
    (runTick regs (fun batch => Except.ok (f batch))).1 = [regs.dedup] ∧
    (runTick regs (fun batch => Except.ok (f batch))).1.length = 1 ∧
    regs.dedup.Nodup ∧
    (∀ k, k ∈ regs.dedup ↔ k ∈ regs) ∧
    regs.dedup.length = regs.toFinset.card ∧
    (runTick regs (fun batch => Except.ok (f batch))).2 =
      regs.map (fun k => (k, Except.ok (f regs.dedup k))) := by
  have hne : regs.isEmpty = false := by
    cases regs with
    | nil => exact absurd rfl h
    | cons a l => rfl
  have hrt : runTick regs (fun batch => Except.ok (f batch)) =
      ([regs.dedup], regs.map (fun k => (k, Except.ok (f regs.dedup k)))) := by
    simp [runTick, hne]
  rw [hrt]
  exact ⟨rfl, rfl, List.nodup_dedup regs, fun k => List.mem_dedup,
    (List.card_toFinset regs).symm, rfl⟩

/-- Witness for C3: three registrations of two distinct keys trigger one
fetch over a duplicate-free batch of size two. -/
theorem c3_coalescing_witness :
    (([1, 2, 1] : List Nat) ≠ []) ∧
    (runTick [1, 2, 1] (fun _ => Except.ok (fun k => some (k + 100)))).1.length = 1 ∧
    ([1, 2, 1] : List Nat).dedup.Nodup ∧
    ([1, 2, 1] : List Nat).dedup.length = ([1, 2, 1] : List Nat).toFinset.card := by
  have h := c3_coalescing (V := Nat) [1, 2, 1] (fun _ k => some (k + 100)) (by decide)
  exact ⟨by decide, h.2.1, h.2.2.1, h.2.2.2.2.1⟩

/-- Claim C4: the composite-key statistics fetch is tuple-exact.  Every row
the query returns matches one of the requested (scaling id, statistics
variant) pairs exactly — never a cross-product combination — the key under
which such a row is inserted is always a requested pair, the result map is
populated only at requested pairs, and the spec's cross-product example
returns nothing: requesting {(1, overall), (2, innerShell)} does not return
a stored row keyed (1, innerShell). -/
theorem c4_composite_key_exactness :
    (∀ (keys : List (Nat × StatisticsType)) (table : List AutoProcScalingStatisticsModel)
       (r : AutoProcScalingStatisticsModel),
       r ∈ AutoProcScalingDataLoader.query keys table →
         (AutoProcScalingDataLoader.rowKey r).isSome) ∧
    (∀ (keys : List (Nat × StatisticsType)) (table : List AutoProcScalingStatisticsModel)
       (r : AutoProcScalingStatisticsModel) (kt : Nat × StatisticsType),
       r ∈ AutoProcScalingDataLoader.query keys table →
         AutoProcScalingDataLoader.rowKey r = some kt → kt ∈ keys) ∧
    (∀ (keys : List (Nat × StatisticsType)) (table : List AutoProcScalingStatisticsModel),
       ∃ m, AutoProcScalingDataLoader.loadInsert (AutoProcScalingDataLoader.query keys table) =
           Except.ok m ∧
         ∀ kt, m kt ≠ none → kt ∈ keys) ∧
    AutoProcScalingDataLoader.query [(1, StatisticsType.Overall), (2, StatisticsType.InnerShell)]
      [statRow (some 1) ScalingStatisticsType.InnerShell] = [] := by
  have hpair : ∀ (keys : List (Nat × StatisticsType)) (table : List AutoProcScalingStatisticsModel)
      (r : AutoProcScalingStatisticsModel), r ∈ AutoProcScalingDataLoader.query keys table →
        ∃ kt ∈ keys, r.auto_proc_scaling_id = some kt.1 ∧
          StatisticsType.ofScaling r.scaling_statistics_type = kt.2 := by
    intro keys table r hr
    have hmatch : AutoProcScalingDataLoader.tupleMatch keys r = true :=
      (List.mem_filter.mp hr).2
    rw [AutoProcScalingDataLoader.tupleMatch, List.any_eq_true] at hmatch
    obtain ⟨kt, hkt, hcond⟩ := hmatch
    rw [Bool.and_eq_true, beq_iff_eq, beq_iff_eq] at hcond
    exact ⟨kt, hkt, hcond.1, (to_value_eq_to_string_iff _ _).mp hcond.2⟩
  have hkey : ∀ (keys : List (Nat × StatisticsType)) (table : List AutoProcScalingStatisticsModel)
      (r : AutoProcScalingStatisticsModel) (kt : Nat × StatisticsType),
      r ∈ AutoProcScalingDataLoader.query keys table →
        AutoProcScalingDataLoader.rowKey r = some kt → kt ∈ keys := by
    intro keys table r kt hr hkt
    obtain ⟨kt', hmem, hid, hty⟩ := hpair keys table r hr
    rw [AutoProcScalingDataLoader.rowKey, hid] at hkt
    simp only [Option.map_some'] at hkt
    have : kt = kt' := by
      rw [← Option.some_inj.mp hkt, hty]
    rw [this]
    exact hmem
  refine ⟨?_, hkey, ?_, by decide⟩
  · intro keys table r hr
    obtain ⟨kt, hmem, hid, hty⟩ := hpair keys table r hr
    rw [AutoProcScalingDataLoader.rowKey, hid]
    rfl
  · intro keys table
    have hsome : ∀ r ∈ AutoProcScalingDataLoader.query keys table,
        AutoProcScalingDataLoader.rowKey r =
          some (r.auto_proc_scaling_id.getD 0,
            StatisticsType.ofScaling r.scaling_statistics_type) := by
      intro r hr
      obtain ⟨kt, hmem, hid, hty⟩ := hpair keys table r hr
      rw [AutoProcScalingDataLoader.rowKey, hid]
      simp
    refine ⟨insertFold
      (fun r => (r.auto_proc_scaling_id.getD 0,
        StatisticsType.ofScaling r.scaling_statistics_type))
      AutoProcScalingStatics.ofModel emptyMap
      (AutoProcScalingDataLoader.query keys table),
      insertFoldU_of_isSome _ _ _ _ emptyMap hsome, ?_⟩
    intro kt hne
    obtain ⟨r0, hr0, hkey0⟩ := insertFold_support _ _ _ _ hne
    obtain ⟨kt', hmem, hid, hty⟩ := hpair keys table r0 hr0
    have hkt : kt = kt' := by
      rw [← hkey0, hid, hty]
      simp
    rw [hkt]
    exact hmem

/-- Witness for C4: a stored row keyed (1, overall) is returned for the
request {(1, overall), (2, innerShell)}, and the pair it is inserted under
is one of the requested pairs. -/
theorem c4_composite_key_witness :
    ((1 : Nat), StatisticsType.Overall) ∈
      [((1 : Nat), StatisticsType.Overall), ((2 : Nat), StatisticsType.InnerShell)] := by
  exact c4_composite_key_exactness.2.1
    [(1, StatisticsType.Overall), (2, StatisticsType.InnerShell)]
    [statRow (some 1) ScalingStatisticsType.Overall]
    (statRow (some 1) ScalingStatisticsType.Overall)
    ((1, StatisticsType.Overall)) (by decide) (by decide)

/-- Claim C5: the one-to-many loaders group the store's rows by parent key
with nothing dropped, nothing duplicated and store order preserved: under
each key the result holds exactly the sublist of returned rows carrying
that parent key, in order; keys with no rows are absent.  For
`ProcessJobDataLoader` this is stated under the store invariant that every
returned row carries a `dataCollectionId` (the column it was filtered on). -/
theorem c5_grouping :
    (∀ rows : List ProcessJob,
      (∀ r ∈ rows, (r.processing_job.data_collection_id).isSome) →
        ∃ m, ProcessJobDataLoader.loadInsert rows = Except.ok m ∧
          ∀ k, m k =
            (if rows.filter (fun r => r.processing_job.data_collection_id == some k) = []
             then none
             else some (rows.filter (fun r => r.processing_job.data_collection_id == some k)))) ∧
    (∀ (rows : List AP) (k : Nat),
      AutoProcIntegrationDataLoader.loadInsert rows k =
        (if rows.filter (fun r => r.data_collection_id == k) = [] then none
         else some (rows.filter (fun r => r.data_collection_id == k)))) := by
  constructor
  · intro rows h
    have hsome : ∀ r ∈ rows, r.processing_job.data_collection_id =
        some ((r.processing_job.data_collection_id).getD 0) := by
      intro r hr
      obtain ⟨j, hj⟩ := Option.isSome_iff_exists.mp (h r hr)
      rw [hj]
      rfl
    refine ⟨pushFold (fun r => (r.processing_job.data_collection_id).getD 0) emptyMap rows,
      pushFoldU_of_isSome _ _ rows emptyMap hsome, ?_⟩
    intro k
    rw [pushFold_apply]
    have hfilter : rows.filter (fun r => (r.processing_job.data_collection_id).getD 0 == k) =
        rows.filter (fun r => r.processing_job.data_collection_id == some k) := by
      apply List.filter_congr
      intro r hr
      obtain ⟨j, hj⟩ := Option.isSome_iff_exists.mp (h r hr)
      rw [hj]
      simp
    rw [hfilter]
    by_cases hemp : rows.filter (fun r => r.processing_job.data_collection_id == some k) = []
    · simp [hemp, emptyMap]
    · simp [hemp, emptyMap]
  · intro rows k
    rw [AutoProcIntegrationDataLoader.loadInsert, pushFold_apply]
    by_cases hemp : rows.filter (fun r => r.data_collection_id == k) = []
    · simp [hemp, emptyMap]
    · simp [hemp, emptyMap]

/-- Witness for C5: two rows sharing data collection id 5 are grouped under
key 5; the job loader's grouping succeeds on rows whose key column is
populated, and the integration loader groups only the matching row. -/
theorem c5_grouping_witness :
    isOkE (ProcessJobDataLoader.loadInsert [processJobRow (some 5), processJobRow (some 5)]) =
      true ∧
    AutoProcIntegrationDataLoader.loadInsert [apRow 5, apRow 6] 5 = some [apRow 5] := by
  obtain ⟨m, hm, hchar⟩ :=
    c5_grouping.1 [processJobRow (some 5), processJobRow (some 5)] (by decide)
  refine ⟨by rw [hm]; rfl, ?_⟩
  rw [c5_grouping.2 [apRow 5, apRow 6] 5]
  decide

/-- Claim C6: a database failure short-circuits the whole load — the load
returns exactly that failure and never a partial key-to-value map — and the
collector hands the same failure to every waiter of the batch. -/
theorem c6_failure_propagation :
    (∀ (keys : List Nat) (e : DbErr),
      ProcessedDataLoader.load keys (Except.error e) = Except.error e) ∧
    (∀ (keys : List (Nat × StatisticsType)) (e : DbErr),
      AutoProcScalingDataLoader.load keys (Except.error e) = Except.error e) ∧
    (∀ (K V : Type) (_inst : DecidableEq K) (regs : List K) (e : DbErr),
      (runTick (K := K) (V := V) regs (fun _ => Except.error e)).2 =
        regs.map (fun k => (k, Except.error e))) := by
  refine ⟨fun keys e => rfl, fun keys e => rfl, ?_⟩
  intro K V _inst regs e
  cases regs with
  | nil => rfl
  | cons a l => rfl

/-- Claim C7: the enumerant-to-string tables form the fixed bidirectional
lookup Overall ↔ "overall", InnerShell ↔ "innershell",
OuterShell ↔ "outershell": `to_string` produces exactly these literals, and
a stored variant's string value coincides with a filter literal precisely
when `From` maps the stored variant to that enumerant — the two maps are
mutually inverse across all three values. -/
theorem c7_statistics_lookup_table :
    StatisticsType.to_string StatisticsType.Overall = "overall" ∧
    StatisticsType.to_string StatisticsType.InnerShell = "innershell" ∧
    StatisticsType.to_string StatisticsType.OuterShell = "outershell" ∧
    (∀ (s : ScalingStatisticsType) (t : StatisticsType),
      ScalingStatisticsType.to_value s = StatisticsType.to_string t ↔
        StatisticsType.ofScaling s = t) :=
  ⟨rfl, rfl, rfl, to_value_eq_to_string_iff⟩

/-- Claim C8: resolving a `DataCollection` entity reference builds a stub
carrying exactly the supplied id and nothing else; the resolver is a pure
constructor application, so it performs no database or object-store access. -/
theorem c8_reference_stub (id : Nat) :
    Query.router_data_collection id = { id := id } ∧
    (Query.router_data_collection id).id = id :=
  ⟨rfl, rfl⟩

/-- Claim C9: the one-to-one loaders keep only the last returned row per
key.  `ProcessedDataLoader` stores, under each data collection id, the
`DataProcessing` of the last returned row with that id, discarding earlier
ones by map overwrite; `AutoProcessingDataLoader` does the same per
`autoProcProgramId` (stated under the store invariant that every returned
row carries that column). -/
theorem c9_last_write_wins :
    (∀ (rows : List DataCollectionFileAttachment) (k : Nat),
      ProcessedDataLoader.loadInsert rows k =
        ((rows.filter (fun r => r.data_collection_id == k)).getLast?).map
          DataProcessing.ofModel) ∧
    (∀ rows : List AutoProcess,
      (∀ r ∈ rows, (r.auto_proc.auto_proc_program_id).isSome) →
        ∃ m, AutoProcessingDataLoader.loadInsert rows = Except.ok m ∧
          ∀ k, m k =
            (rows.filter (fun r => r.auto_proc.auto_proc_program_id == some k)).getLast?) := by
  constructor
  · intro rows k
    rw [ProcessedDataLoader.loadInsert, insertFold_apply]
    cases hl : (rows.filter (fun r => r.data_collection_id == k)).getLast? with
    | none => rfl
    | some r => rfl
  · intro rows h
    have hsome : ∀ r ∈ rows, r.auto_proc.auto_proc_program_id =
        some ((r.auto_proc.auto_proc_program_id).getD 0) := by
      intro r hr
      obtain ⟨j, hj⟩ := Option.isSome_iff_exists.mp (h r hr)
      rw [hj]
      rfl
    refine ⟨insertFold (fun r => (r.auto_proc.auto_proc_program_id).getD 0) id emptyMap rows,
      insertFoldU_of_isSome _ _ id rows emptyMap hsome, ?_⟩
    intro k
    rw [insertFold_apply]
    have hfilter : rows.filter (fun r => (r.auto_proc.auto_proc_program_id).getD 0 == k) =
        rows.filter (fun r => r.auto_proc.auto_proc_program_id == some k) := by
      apply List.filter_congr
      intro r hr
      obtain ⟨j, hj⟩ := Option.isSome_iff_exists.mp (h r hr)
      rw [hj]
      simp
    rw [hfilter]
    cases hl : (rows.filter (fun r => r.auto_proc.auto_proc_program_id == some k)).getLast? with
    | none => rfl
    | some r => rfl

/-- Witness for C9: with two file attachment rows sharing data collection
id 7, the loader keeps the later row's value; the auto-processing loader
succeeds on rows whose program id column is populated. -/
theorem c9_last_write_wins_witness :
    ProcessedDataLoader.loadInsert [fileRowA, fileRowB] 7 =
      some (DataProcessing.ofModel fileRowB) ∧
    isOkE (AutoProcessingDataLoader.loadInsert
      [autoProcessRow (some 3) 1, autoProcessRow (some 3) 2]) = true := by
  obtain ⟨m, hm, hchar⟩ :=
    c9_last_write_wins.2 [autoProcessRow (some 3) 1, autoProcessRow (some 3) 2] (by decide)
  refine ⟨?_, by rw [hm]; rfl⟩
  rw [c9_last_write_wins.1 [fileRowA, fileRowB] 7]
  decide

/-- Claim C10: the three loaders that unwrap an optional foreign-key column
complete without a fatal abort exactly when every row the store returned
carries a populated value in the column it was filtered on —
`dataCollectionId` for the job loader, `autoProcProgramId` for the
auto-processing loader and `autoProcScalingId` for the scaling loader; a
single `NULL` in that column aborts the load. -/
theorem c10_unwrap_precondition :
    (∀ rows : List ProcessJob,
      isOkE (ProcessJobDataLoader.loadInsert rows) = true ↔
        ∀ r ∈ rows, (r.processing_job.data_collection_id).isSome) ∧
    (∀ rows : List AutoProcess,
      isOkE (AutoProcessingDataLoader.loadInsert rows) = true ↔
        ∀ r ∈ rows, (r.auto_proc.auto_proc_program_id).isSome) ∧
    (∀ rows : List AutoProcScalingStatisticsModel,
      isOkE (AutoProcScalingDataLoader.loadInsert rows) = true ↔
        ∀ r ∈ rows, (r.auto_proc_scaling_id).isSome) := by
  refine ⟨fun rows => pushFoldU_isOk_iff _ rows emptyMap,
    fun rows => insertFoldU_isOk_iff _ _ rows emptyMap,
    fun rows => ?_⟩
  rw [AutoProcScalingDataLoader.loadInsert,
    insertFoldU_isOk_iff AutoProcScalingDataLoader.rowKey AutoProcScalingStatics.ofModel rows emptyMap]
  constructor
  · intro hall r hr
    have hk := hall r hr
    rw [AutoProcScalingDataLoader.rowKey] at hk
    simpa using hk
  · intro hall r hr
    have hk := hall r hr
    rw [AutoProcScalingDataLoader.rowKey]
    simpa using hk

/-- Witness for C10: each loader's insert loop completes on a row whose
filtered key column is populated. -/
theorem c10_unwrap_precondition_witness :
    isOkE (ProcessJobDataLoader.loadInsert [processJobRow (some 5)]) = true ∧
    isOkE (AutoProcessingDataLoader.loadInsert [autoProcessRow (some 3) 1]) = true ∧
    isOkE (AutoProcScalingDataLoader.loadInsert
      [statRow (some 1) ScalingStatisticsType.Overall]) = true :=
  ⟨(c10_unwrap_precondition.1 _).mpr (by decide),
   (c10_unwrap_precondition.2.1 _).mpr (by decide),
   (c10_unwrap_precondition.2.2 _).mpr (by decide)⟩
